import Mathlib

/-!
Verification of the ingestion + hybrid-retrieval core of the
`aicompliance_mcp` repository (EU AI Act chatbot).

Shallow embedding of:
- `src/eu_ai_act_chatbot/processors/document_processor.py` (`EUAIActProcessor.process`)
- `src/eu_ai_act_chatbot/storage/knowledge_graph.py` (`KnowledgeGraph`)
- `src/eu_ai_act_chatbot/storage/vector_store.py` (`VectorStore.search`)
- `src/eu_ai_act_chatbot/retrieval/hybrid_retriever.py` (`HybridRetriever`)

Python string primitives (`str.strip`, `str.lower`, `"…".join`, regular
expressions) are embedded as executable functions over `List Char`
(`String.data`), because the program manipulates short ASCII text line by
line.  Whitespace is the Python `\s` class restricted to its ASCII members,
which is exhaustive for the line-based inputs reaching these functions.
-/

namespace EUAIAct

/-! ## Python string primitives -/

/-- ASCII members of Python's whitespace class (`str.strip`, regex `\s`). -/
def isPySpace (c : Char) : Bool :=
  c = ' ' || c = '\t' || c = '\n' || c = '\r' || c = '\x0b' || c = '\x0c'

/-- Python `str.strip()` on the character list. -/
def pyStripChars (cs : List Char) : List Char :=
  ((cs.dropWhile isPySpace).reverse.dropWhile isPySpace).reverse

/-- Python `str.strip()`. -/
def pyStrip (s : String) : String := String.mk (pyStripChars s.data)

/-- Python `sep.join(xs)`. -/
def pyJoin (sep : String) : List String → String
  | [] => ""
  | [x] => x
  | x :: y :: xs => x ++ sep ++ pyJoin sep (y :: xs)

/-- Case-insensitive literal match: consumes `pat` (given lowercase) from the
front of `cs`, comparing each input character lowercased, as Python
`re.IGNORECASE` does for a literal pattern. -/
def stripCI : List Char → List Char → Option (List Char)
  | [], cs => some cs
  | _ :: _, [] => none
  | p :: ps, c :: cs => if c.toLower = p then stripCI ps cs else none

/-- Case-sensitive literal match: consumes `pat` from the front of `cs`. -/
def stripLit : List Char → List Char → Option (List Char)
  | [], cs => some cs
  | _ :: _, [] => none
  | p :: ps, c :: cs => if c = p then stripLit ps cs else none

/-- Lexicographic comparison of character lists by code point: the order
Python's `<=` and `sorted` use on strings. -/
def charsLeB : List Char → List Char → Bool
  | [], _ => true
  | _ :: _, [] => false
  | a :: as, b :: bs => if a < b then true else if b < a then false else charsLeB as bs

/-- Python string `<=` (lexicographic by code point). -/
def strLeB (a b : String) : Bool := charsLeB a.data b.data

/-! ## Document processor (`EUAIActProcessor.process`) -/

/-- Paragraph record built by the processor (`{"number": …, "text": …}`). -/
structure Paragraph where
  number : String
  text : String
deriving DecidableEq

/-- Finalized article record built by the processor
(`{"number", "title", "content", "paragraphs"}`). -/
structure Article where
  number : String
  title : String
  content : String
  paragraphs : List Paragraph
deriving DecidableEq

/-- `re.match(r'Article\s+(\d+)\s*(.*)', line, re.IGNORECASE)`
(document_processor.py line 62).  Returns `(group 1, group 2)`: the article
number and the remainder after the maximal whitespace run.  The pattern is
anchored at the start of the line; all quantifiers are greedy and the
grammar is deterministic (whitespace, digits and the tail never overlap). -/
def matchArticleHeader (line : String) : Option (String × String) :=
  match stripCI "article".data line.data with
  | none => none
  | some r0 =>
    if r0.takeWhile isPySpace = [] then none
    else
      let r1 := r0.dropWhile isPySpace
      let ds := r1.takeWhile Char.isDigit
      if ds = [] then none
      else some (String.mk ds, String.mk ((r1.dropWhile Char.isDigit).dropWhile isPySpace))

/-- `re.match(r'^\s*(?:\()?(\d+)(?:\))?\.\s+(.*)', line)`
(document_processor.py lines 89/96/116).  Returns group 1 (the paragraph
number).  The optional parenthesis quantifiers are deterministic: retrying
them after consuming cannot succeed, since `(`/`)` are neither digits nor
the dot. -/
def matchParaStart (line : String) : Option String :=
  let r0 := line.data.dropWhile isPySpace
  let r1 := match r0 with
    | '(' :: rest => rest
    | _ => r0
  let ds := r1.takeWhile Char.isDigit
  if ds = [] then none
  else
    let r2 := r1.dropWhile Char.isDigit
    let r3 := match r2 with
      | ')' :: rest => rest
      | _ => r2
    match r3 with
    | '.' :: c :: _ => if isPySpace c then some (String.mk ds) else none
    | _ => none

/-- The `current_article` dictionary while it still carries `content_parts`. -/
structure CurArticle where
  number : String
  title : String
  contentParts : List String
  paragraphs : List Paragraph
deriving DecidableEq

/-- Loop state of `process`: the `articles` list, the optional
`current_article`, and the `paragraph_buffer`. -/
structure PState where
  articles : List Article
  current : Option CurArticle
  buffer : List String
deriving DecidableEq

/-- Finalizing an article: `content = "\n".join(content_parts)`;
`content_parts` is dropped (lines 68–70 and 126–130). -/
def finalizeArticle (c : CurArticle) : Article :=
  { number := c.number, title := c.title,
    content := pyJoin "\n" c.contentParts, paragraphs := c.paragraphs }

/-- Storing the buffered paragraph (lines 92–103 and 114–123): when the
buffer is non-empty and its first line matches the numbered-paragraph
pattern, append `{number, " ".join(buffer).strip()}` to the article's
paragraph list. -/
def flushBuffer (c : CurArticle) (buffer : List String) : CurArticle :=
  match buffer with
  | [] => c
  | first :: _ =>
    match matchParaStart first with
    | some num =>
      { c with paragraphs :=
          c.paragraphs ++ [{ number := num, text := pyStrip (pyJoin " " buffer) }] }
    | none => c

/-- One iteration of the `for line in lines` loop (lines 55–111).  Note that
the article-header branch (lines 65–82) finalizes the previous article
WITHOUT flushing `paragraph_buffer` and then resets the buffer. -/
def processLine (st : PState) (rawLine : String) : PState :=
  let line := pyStrip rawLine
  if line = "" then st
  else
    match matchArticleHeader line with
    | some (num, rest) =>
      let finished :=
        match st.current with
        | some c => st.articles ++ [finalizeArticle c]
        | none => st.articles
      let title := if rest = "" then line else pyStrip rest
      { articles := finished,
        current := some { number := num, title := title,
                          contentParts := [line], paragraphs := [] },
        buffer := [] }
    | none =>
      match st.current with
      | none => st
      | some c0 =>
        let c := { c0 with contentParts := c0.contentParts ++ [line] }
        match matchParaStart line with
        | some _ => { st with current := some (flushBuffer c st.buffer), buffer := [line] }
        | none =>
          if st.buffer = [] then { st with current := some c }
          else { st with current := some c, buffer := st.buffer ++ [line] }

/-- The text-processing part of `EUAIActProcessor.process` (lines 51–139),
over the stripped input lines: fold the loop body, then flush the last
buffered paragraph into the last article (lines 113–123) and append that
article (lines 125–130). -/
def processText (lines : List String) : List Article :=
  let st := lines.foldl processLine { articles := [], current := none, buffer := [] }
  match st.current with
  | some c => st.articles ++ [finalizeArticle (flushBuffer c st.buffer)]
  | none => st.articles

/-- `EUAIActProcessor.process` seen from the caller, with an explicit error
channel for raised exceptions.  The raise paths of the method (lines
141–149) concern PDF decoding, which happens before the line loop; the
text-processing path raises nothing: an empty extraction returns `[]`
(line 49) and a parse yielding zero articles logs a warning and returns the
empty list (lines 132–139). -/
def process (lines : List String) : Except String (List Article) :=
  Except.ok (processText lines)

/-! ## Knowledge graph (`KnowledgeGraph`)

The Neo4j database is modelled by its contents: the `Article` nodes, each
with its `CONTAINS`-ed `Paragraph` nodes.  The uniqueness constraint
`unique_article_number` (knowledge_graph.py line 40) makes lookup by number
a first-match search. -/

/-- An `Article` node together with its `CONTAINS`-ed `Paragraph` nodes. -/
structure KGArticle where
  number : String
  title : String
  paragraphs : List Paragraph
deriving DecidableEq

/-- A row returned by `KnowledgeGraph.search` (lines 178–184). -/
structure KGSearchResult where
  article : String
  title : String
  paragraph_number : String
  text : String
deriving DecidableEq

/-- The dictionary returned by `KnowledgeGraph.get_article_content`
(lines 225–229). -/
structure ArticleContent where
  article : String
  title : String
  content : String
deriving DecidableEq

/-- Decimal value of a digit string, for Cypher `toInteger`. -/
def digitsToNat (acc : Nat) : List Char → Nat
  | [] => acc
  | c :: cs => digitsToNat (acc * 10 + (c.toNat - 48)) cs

/-- Cypher `toInteger` on the stored paragraph numbers: the integer for a
non-empty digit string (the processor produces only `\d+` captures here),
`null` (`none`) otherwise. -/
def cypherKey (p : Paragraph) : Option Nat :=
  if !p.number.data.isEmpty && p.number.data.all Char.isDigit then
    some (digitsToNat 0 p.number.data)
  else none

/-- Cypher ascending `ORDER BY` on `toInteger` values: `null` sorts last. -/
def cypherIntLeB : Option Nat → Option Nat → Bool
  | some a, some b => Nat.ble a b
  | some _, none => true
  | none, some _ => false
  | none, none => true

/-- `ORDER BY toInteger(p.number)` over a paragraph collection
(knowledge_graph.py lines 249–253). -/
def sortParagraphs (ps : List Paragraph) : List Paragraph :=
  List.insertionSort (fun p q => cypherIntLeB (cypherKey p) (cypherKey q) = true) ps

/-- `KnowledgeGraph.get_article_content` (lines 212–235) with the Cypher of
`_execute_get_article` (lines 249–253): the rows are the `(article,
paragraph)` pairs matching `(a:Article {number})-[:CONTAINS]->(p)`, so an
absent article AND an article with zero contained paragraphs both produce
zero rows, `result.single()` yields `None`, and the method returns `None`.
Every backend exception is caught and also returns `None` (lines 233–235),
so the embedding is total. -/
def getArticleContent (kg : List KGArticle) (n : String) : Option ArticleContent :=
  if n = "" then none
  else
    match kg.find? (fun a => a.number == n) with
    | none => none
    | some a =>
      if a.paragraphs.isEmpty then none
      else
        some { article := n, title := a.title,
               content := pyJoin "\n\n" ((sortParagraphs a.paragraphs).map Paragraph.text) }

/-- Cypher's case-sensitive `CONTAINS` (substring) operator. -/
def containsSub (hay needle : String) : Bool :=
  decide (needle.data <:+: hay.data)

/-- `ORDER BY article, paragraph_number` (string comparison, ascending). -/
def rowLeB (r s : KGSearchResult) : Bool :=
  if r.article = s.article then strLeB r.paragraph_number s.paragraph_number
  else strLeB r.article s.article

/-- `KnowledgeGraph.search` / `_execute_keyword_search` (lines 165–210):
empty keyword list short-circuits to `[]`; otherwise return the
`(article, paragraph)` rows whose paragraph text `CONTAINS` (case
sensitively) any keyword, ordered by article then paragraph number, capped
at `limit`. -/
def kgKeywordSearch (kg : List KGArticle) (keywords : List String) (limit : Nat) :
    List KGSearchResult :=
  if keywords.isEmpty then []
  else
    let rows := kg.flatMap (fun a => a.paragraphs.map (fun p =>
      ({ article := a.number, title := a.title,
         paragraph_number := p.number, text := p.text } : KGSearchResult)))
    let hits := rows.filter (fun r => keywords.any (fun k => containsSub r.text k))
    (List.insertionSort (fun r s => rowLeB r s = true) hits).take limit

/-! ## Cross-reference pass (`KnowledgeGraph._create_cross_references`) -/

/-- A `REFERENCES` edge from paragraph node `paraId` (inside article
`source`) to article node `target`. -/
structure RefEdge where
  paraId : String
  source : String
  target : String
deriving DecidableEq

/-- One attempt of `re.findall(r'[Aa]rticle\s+(\d+)', text)` at the current
position: `A` or `a` (only the first letter is in a character class; the
rest of the literal is case sensitive), the literal `rticle`, at least one
whitespace, then the maximal digit run (group 1). -/
def matchRefAt : List Char → Option (String × List Char)
  | [] => none
  | c :: cs =>
    if c = 'A' || c = 'a' then
      match stripLit "rticle".data cs with
      | none => none
      | some r0 =>
        if r0.takeWhile isPySpace = [] then none
        else
          let r1 := r0.dropWhile isPySpace
          let ds := r1.takeWhile Char.isDigit
          if ds = [] then none
          else some (String.mk ds, r1.dropWhile Char.isDigit)
    else none

/-- `re.findall` scan: try a match at each position, left to right,
non-overlapping, collecting group 1.  Fuel-indexed to stay structurally
recursive; every step consumes at least one character, so fuel equal to the
text length is always sufficient. -/
def findRefsAux : Nat → List Char → List String
  | 0, _ => []
  | _, [] => []
  | fuel + 1, c :: cs =>
    match matchRefAt (c :: cs) with
    | some (num, rest) => num :: findRefsAux fuel rest
    | none => findRefsAux fuel cs

/-- `refs = re.findall(r'[Aa]rticle\s+(\d+)', para_text)` (line 144). -/
def findRefs (text : String) : List String :=
  findRefsAux text.data.length text.data

/-- The distinct reference targets of one paragraph that survive the
self-reference guard: `unique_refs = set(refs)` (line 145) and
`if ref_number != article_number` (line 148). -/
def paragraphRefs (articleNumber : String) (text : String) : List String :=
  ((findRefs text).dedup).filter (fun r => r != articleNumber)

/-- `KnowledgeGraph._create_cross_references` (lines 124–163): for every
article with a number and every paragraph with a number and text, `MERGE` a
`REFERENCES` edge for each distinct non-self target cited in the paragraph
text. -/
def crossReferences (articles : List Article) : List RefEdge :=
  articles.flatMap (fun a =>
    if a.number = "" then []
    else a.paragraphs.flatMap (fun p =>
      if p.number = "" || p.text = "" then []
      else (paragraphRefs a.number p.text).map (fun t =>
        { paraId := "article_" ++ a.number ++ "_para_" ++ p.number,
          source := a.number, target := t })))

/-! ## Vector store (`VectorStore.search`)

The embedding model plus Pinecone index are abstracted as one fallible
backend function `query ↦ matches`; `Except.error` models any exception it
raises.  A match carries the locator metadata the retriever reads
(`metadata['article']`, `metadata['text']`); the similarity score is used
only for snippet strings that `HybridRetriever.search` computes and never
emits, so it is omitted. -/

/-- The metadata of one Pinecone match, as read by the retriever
(`match.get('metadata', {}).get(…)`). -/
structure VMeta where
  article : Option String
  text : Option String
deriving DecidableEq

/-- One Pinecone match. -/
structure VMatch where
  metadata : VMeta
deriving DecidableEq

/-- `VectorStore.search` (vector_store.py lines 168–189): the empty query
short-circuits to `[]` before touching the model or index (`if not query`,
which is `True` only for the empty string); otherwise the backend is
invoked and any exception it raises is caught, logged and turned into
`[]`. -/
def vectorSearch (backend : String → Nat → Except String (List VMatch))
    (query : String) (topK : Nat) : List VMatch :=
  if query = "" then []
  else
    match backend query topK with
    | Except.ok ms => ms
    | Except.error _ => []

/-! ## Hybrid retriever (`HybridRetriever`) -/

/-- `c.isalnum() or c == '_'`: the ASCII view of regex `\w`. -/
def isWordChar (c : Char) : Bool := c.isAlphanum || c = '_'

/-- Maximal runs of word characters — `re.findall(r'\b\w+\b', s)`.  The
accumulator holds the current run reversed. -/
def wordRunsAux : List Char → List Char → List (List Char)
  | [], acc => if acc.isEmpty then [] else [acc.reverse]
  | c :: cs, acc =>
    if isWordChar c then wordRunsAux cs (c :: acc)
    else if acc.isEmpty then wordRunsAux cs []
    else acc.reverse :: wordRunsAux cs []

/-- `HybridRetriever._extract_keywords` (hybrid_retriever.py lines 20–31):
lowercase the query, take the maximal `\w+` runs, keep alphabetic words of
length at least `minLength`, and deduplicate (`list(set(…))`; the set's
iteration order is immaterial downstream, where keywords are consumed by
emptiness tests and an `any`-of-substring filter). -/
def extractKeywords (minLength : Nat) (query : String) : List String :=
  let words := (wordRunsAux (query.data.map Char.toLower) []).map String.mk
  (words.filter (fun w =>
    decide (minLength ≤ w.data.length) && w.data.all Char.isAlpha)).dedup

/-- The article numbers collected from the vector matches (lines 46–58):
each truthy `metadata['article']`. -/
def vecArticleNums (vres : List VMatch) : List String :=
  vres.filterMap (fun m =>
    match m.metadata.article with
    | some a => if a = "" then none else some a
    | none => none)

/-- The graph-path rows of `HybridRetriever.search` (lines 62–75): keyword
search with the extracted keywords, skipped when no keyword survives
extraction. -/
def graphRows (kg : List KGArticle) (query : String) (topKGraph : Nat) :
    List KGSearchResult :=
  let keywords := extractKeywords 4 query
  if keywords.isEmpty then [] else kgKeywordSearch kg keywords topKGraph

/-- The article numbers added by the graph path (lines 68–71): each truthy
`result["article"]`. -/
def graphArticleNums (kg : List KGArticle) (query : String) (topKGraph : Nat) :
    List String :=
  (graphRows kg query topKGraph).filterMap (fun r =>
    if r.article = "" then none else some r.article)

/-- The union `article_numbers` accumulated from both paths, as a list with
possible repetitions; the Python code holds it as a `set`, which the
`dedup` below and the subsequent sort make order-independent. -/
def identifiedArticleNums (kg : List KGArticle) (vres : List VMatch)
    (query : String) (topKGraph : Nat) : List String :=
  vecArticleNums vres ++ graphArticleNums kg query topKGraph

/-- The retrieval loop of `HybridRetriever.search` (lines 79–97) over the
sorted article numbers: skip numbers already retrieved, call
`get_article_content` on the rest, keep the found contents and remember
their numbers.  The second component records every number passed to
`get_article_content`, in order — the fetch trace. -/
def fetchLoop (kg : List KGArticle) :
    List String → List String → List ArticleContent × List String
  | [], _ => ([], [])
  | n :: rest, retrieved =>
    if n ∈ retrieved then fetchLoop kg rest retrieved
    else
      match getArticleContent kg n with
      | some c =>
        let r := fetchLoop kg rest (n :: retrieved)
        (c :: r.1, n :: r.2)
      | none =>
        let r := fetchLoop kg rest retrieved
        (r.1, n :: r.2)

/-- Steps 2–3 of `HybridRetriever.search` after the vector results are in
hand: collect both paths' article numbers, `sorted(list(article_numbers))`
(Python's `sorted` on strings is ascending lexicographic by code point, and
a sorted duplicate-free list is independent of the set's iteration order),
then run the retrieval loop. -/
def hybridCore (kg : List KGArticle) (vres : List VMatch) (query : String)
    (topKGraph : Nat) : List ArticleContent × List String :=
  fetchLoop kg
    (List.insertionSort (fun a b => strLeB a b = true)
      (identifiedArticleNums kg vres query topKGraph).dedup) []

/-- `HybridRetriever.search` (lines 33–100), also exposing the fetch trace:
empty query short-circuits (line 37); otherwise vector search (degrading on
failure), keyword extraction, graph search, union, sort, fetch. -/
def hybridSearchCore (backend : String → Nat → Except String (List VMatch))
    (kg : List KGArticle) (query : String) (topKVector topKGraph : Nat) :
    List ArticleContent × List String :=
  if query = "" then ([], [])
  else hybridCore kg (vectorSearch backend query topKVector) query topKGraph

/-- The value `HybridRetriever.search` returns: the consolidated article
context blocks. -/
def hybridSearch (backend : String → Nat → Except String (List VMatch))
    (kg : List KGArticle) (query : String) (topKVector topKGraph : Nat) :
    List ArticleContent :=
  (hybridSearchCore backend kg query topKVector topKGraph).1

/-- The article numbers `HybridRetriever.search` passes to
`KnowledgeGraph.get_article_content`, in call order. -/
def hybridFetchTrace (backend : String → Nat → Except String (List VMatch))
    (kg : List KGArticle) (query : String) (topKVector topKGraph : Nat) :
    List String :=
  (hybridSearchCore backend kg query topKVector topKGraph).2

/-- The article numbers identified by the two search paths together, for a
given run of `HybridRetriever.search` (empty when the query is empty, since
the method returns before searching). -/
def identifiedArticles (backend : String → Nat → Except String (List VMatch))
    (kg : List KGArticle) (query : String) (topKVector topKGraph : Nat) :
    List String :=
  if query = "" then []
  else identifiedArticleNums kg (vectorSearch backend query topKVector) query topKGraph

/-! ## Concrete instances used by the claim theorems -/

/-- The single-quote character (code point 39). -/
def sq : String := String.mk [Char.ofNat 39]

/-- Fourth line of the spec's parser example: `1. 'system' means software.` -/
def specLine4 : String := "1. " ++ sq ++ "system" ++ sq ++ " means software."

/-- The spec's parser example input, line by line. -/
def specLines : List String :=
  ["Article 1 Scope", "1. This applies to systems.", "Article 2 Definitions", specLine4]

/-- Numeric value of an article identifier — the ordering key the claim
about `HybridRetriever.search` prescribes ("ascending by the numeric value
of the article identifier"). -/
def artNumVal (s : String) : Nat := digitsToNat 0 s.data

/-- Whether a list of article identifiers is ascending by numeric value
(the order the claim prescribes). -/
def numSortedB : List String → Bool
  | [] => true
  | [_] => true
  | a :: b :: rest => Nat.ble (artNumVal a) (artNumVal b) && numSortedB (b :: rest)

/-- Graph containing articles "10" and "9", each with one paragraph. -/
def c3KG : List KGArticle :=
  [{ number := "10", title := "Ten", paragraphs := [{ number := "1", text := "Text ten" }] },
   { number := "9", title := "Nine", paragraphs := [{ number := "1", text := "Text nine" }] }]

/-- Vector backend identifying articles "9" and "10". -/
def c3Backend : String → Nat → Except String (List VMatch) :=
  fun _ _ => Except.ok
    [{ metadata := { article := some "9", text := some "Text nine" } },
     { metadata := { article := some "10", text := some "Text ten" } }]

/-- One-header input line list for the parser. -/
def c4Lines : List String := ["Article 1 Scope"]

/-- An article list whose single paragraph cites Article 1 twice. -/
def c5Arts : List Article :=
  [{ number := "2", title := "Definitions", content := "",
     paragraphs := [{ number := "1",
                      text := "See Article 1 and then again Article 1 here." }] }]

/-- The single `REFERENCES` edge the cross-reference pass produces for
`c5Arts`. -/
def c5Edge : RefEdge := { paraId := "article_2_para_1", source := "2", target := "1" }

/-- Failing vector backend. -/
def c6FailBackend : String → Nat → Except String (List VMatch) :=
  fun _ _ => Except.error "pinecone unavailable"

/-- Healthy but empty vector backend. -/
def c6OkBackend : String → Nat → Except String (List VMatch) :=
  fun _ _ => Except.ok []

/-- Graph whose article "4" has a paragraph mentioning "risk". -/
def c6KG : List KGArticle :=
  [{ number := "4", title := "Risk",
     paragraphs := [{ number := "1", text := "high risk systems" }] }]

/-- The row the graph keyword path finds in `c6KG` for the query "risk". -/
def c6Row : KGSearchResult :=
  { article := "4", title := "Risk", paragraph_number := "1", text := "high risk systems" }

/-- The content block stored for article "4" in `c6KG`. -/
def c6Content : ArticleContent :=
  { article := "4", title := "Risk", content := "high risk systems" }

/-- A vector match, for observing backend invocation. -/
def c7Match : VMatch := { metadata := { article := some "1", text := some "t" } }

/-- Backend returning `c7Match` for every query. -/
def c7Backend : String → Nat → Except String (List VMatch) :=
  fun _ _ => Except.ok [c7Match]

/-- Backend returning no matches. -/
def c7EmptyBackend : String → Nat → Except String (List VMatch) :=
  fun _ _ => Except.ok []

/-- Graph containing exactly articles "1" through "5". -/
def c8KG : List KGArticle :=
  [{ number := "1", title := "One", paragraphs := [{ number := "1", text := "a" }] },
   { number := "2", title := "Two", paragraphs := [{ number := "1", text := "b" }] },
   { number := "3", title := "Three", paragraphs := [{ number := "1", text := "c" }] },
   { number := "4", title := "Four", paragraphs := [{ number := "1", text := "d" }] },
   { number := "5", title := "Five", paragraphs := [{ number := "1", text := "e" }] }]

/-- Graph whose article "7" owns zero paragraphs. -/
def c9KG : List KGArticle :=
  [{ number := "7", title := "Empty", paragraphs := [] }]

/-- Graph whose only paragraph mentions the word ROBOT in upper case only. -/
def c10KG : List KGArticle :=
  [{ number := "3", title := "Robots",
     paragraphs := [{ number := "1", text := "The ROBOT must comply." }] }]

/-- A query containing the word ROBOT. -/
def c10Query : String := "Does ROBOT apply"

/-- The row of `c10KG`'s only paragraph. -/
def c10Row : KGSearchResult :=
  { article := "3", title := "Robots", paragraph_number := "1",
    text := "The ROBOT must comply." }

/-! ## Parser lemmas -/

/-- The empty line is not an article header. -/
theorem matchArticleHeader_empty : matchArticleHeader "" = none := rfl

/-- Once an article is open, every loop branch keeps one open. -/
theorem processLine_current_isSome (st : PState) (l : String)
    (h : st.current.isSome = true) : ((processLine st l).current).isSome = true := by
  obtain ⟨arts, cur, buf⟩ := st
  rcases cur with _ | c
  · simp at h
  · by_cases hemp : pyStrip l = ""
    · simp [processLine, hemp]
    · rcases hh : matchArticleHeader (pyStrip l) with _ | ⟨num, rest⟩
      · rcases hp : matchParaStart (pyStrip l) with _ | n
        · by_cases hbuf : buf = ([] : List String) <;>
            simp [processLine, hemp, hh, hp, hbuf]
        · simp [processLine, hemp, hh, hp]
      · simp [processLine, hemp, hh]

/-- `processLine_current_isSome`, folded over the whole input. -/
theorem foldl_current_isSome (lines : List String) (st : PState)
    (h : st.current.isSome = true) :
    (((lines.foldl processLine st)).current).isSome = true := by
  induction lines generalizing st with
  | nil => exact h
  | cons l ls ih => exact ih _ (processLine_current_isSome st l h)

/-- With no open article and no header on the line, the loop body is the
identity. -/
theorem processLine_no_header (arts : List Article) (buf : List String) (l : String)
    (hh : matchArticleHeader (pyStrip l) = none) :
    processLine ⟨arts, none, buf⟩ l = ⟨arts, none, buf⟩ := by
  by_cases hemp : pyStrip l = "" <;> simp [processLine, hemp, hh]

/-- With no open article and no header anywhere, the whole loop is the
identity. -/
theorem foldl_no_header (lines : List String) (arts : List Article) (buf : List String)
    (hh : ∀ l ∈ lines, matchArticleHeader (pyStrip l) = none) :
    lines.foldl processLine ⟨arts, none, buf⟩ = ⟨arts, none, buf⟩ := by
  induction lines with
  | nil => rfl
  | cons l ls ih =>
    have h1 : processLine ⟨arts, none, buf⟩ l = ⟨arts, none, buf⟩ :=
      processLine_no_header arts buf l (hh l (List.mem_cons_self l ls))
    simp only [List.foldl_cons, h1]
    exact ih (fun x hx => hh x (List.mem_cons_of_mem l hx))

/-- A header line opens an article. -/
theorem processLine_header_isSome (st : PState) (l : String)
    (hne : matchArticleHeader (pyStrip l) ≠ none) :
    ((processLine st l).current).isSome = true := by
  obtain ⟨arts, cur, buf⟩ := st
  by_cases hemp : pyStrip l = ""
  · rw [hemp, matchArticleHeader_empty] at hne
    exact absurd rfl hne
  · rcases hh : matchArticleHeader (pyStrip l) with _ | ⟨num, rest⟩
    · exact absurd hh hne
    · rcases cur with _ | c <;> simp [processLine, hemp, hh]

/-- If some input line is a header, the loop ends with an open article. -/
theorem foldl_header_some (lines : List String) (st : PState)
    (h : ∃ l ∈ lines, matchArticleHeader (pyStrip l) ≠ none) :
    (((lines.foldl processLine st)).current).isSome = true := by
  induction lines generalizing st with
  | nil => obtain ⟨l, hl, _⟩ := h; exact absurd hl (List.not_mem_nil l)
  | cons l ls ih =>
    obtain ⟨x, hx, hne⟩ := h
    rcases List.mem_cons.mp hx with rfl | hx'
    · by_cases hls : ∃ y ∈ ls, matchArticleHeader (pyStrip y) ≠ none
      · exact ih _ hls
      · exact foldl_current_isSome ls _ (processLine_header_isSome st x hne)
    · exact ih _ ⟨x, hx', hne⟩

/-! ## Claim theorems: parser (C1, C2, C4) -/

/-- C1: at the spec's own well-formed two-article example (paragraph counts
1 and 1), `process` returns two article records whose paragraph lists have
lengths 0 and 1: the paragraph whose buffer is still open when the
"Article 2" header line arrives is dropped, not appended, because the
article-header branch never flushes `paragraph_buffer`.  This contradicts
the claim that the paragraph counts are preserved and the open buffer is
finalized at an article boundary. -/
theorem c1_header_drops_open_paragraph_buffer :
    (processText specLines).map (fun a => (a.number, a.paragraphs.length)) =
      [("1", 0), ("2", 1)] := by decide

/-- C2 counterexample: at the spec's example input the two returned
articles do NOT have one paragraph each — Article 1's paragraph list is
empty — refuting the claim at its own input. -/
theorem c2_counterexample_not_one_paragraph_each :
    (processText specLines).map (fun a => a.paragraphs.length) ≠ [1, 1] := by decide

/-- C2 amended: the full output of `process` at the input "Article 1
Scope" / "1. This applies to systems." / "Article 2 Definitions" / "1.
'system' means software.": two articles, where Article 1 has NO paragraph
(its open buffer is dropped at the "Article 2" header), and Article 2's
single paragraph keeps its leading number marker in the text (the
processor stores the plain join of the buffered lines). -/
theorem c2_parse_example_actual_output :
    processText specLines =
      [{ number := "1", title := "Scope",
         content := "Article 1 Scope" ++ "\n" ++ "1. This applies to systems.",
         paragraphs := [] },
       { number := "2", title := "Definitions",
         content := "Article 2 Definitions" ++ "\n" ++ specLine4,
         paragraphs := [{ number := "1", text := specLine4 }] }] := by decide

/-- C4 counterexample: on empty input `process` does not raise any error
(the claim says it fails with a `ParseError`): it returns the ordinary
value `[]`. -/
theorem c4_counterexample_empty_input_returns_value :
    process [] = Except.ok [] := rfl

/-- C4 amended: `process` never raises for any line input — the
zero-article outcome is reported as the ordinary value `[]`, returned
exactly when no input line is an article header. -/
theorem c4_amended_never_raises_and_empty_iff_no_header (lines : List String) :
    (process lines).isOk = true ∧
      ((process lines = Except.ok []) ↔
        ∀ l ∈ lines, matchArticleHeader (pyStrip l) = none) := by
  refine ⟨rfl, ?_, ?_⟩
  · intro h
    by_contra hcon
    push_neg at hcon
    obtain ⟨l, hl, hne⟩ := hcon
    have hs := foldl_header_some lines
      { articles := [], current := none, buffer := [] } ⟨l, hl, hne⟩
    have hpt : processText lines = [] := by
      have h' := h
      unfold process at h'
      exact Except.ok.inj h'
    simp only [processText] at hpt
    rcases hcur : ((lines.foldl processLine
        { articles := [], current := none, buffer := [] })).current with _ | c
    · rw [hcur] at hs; simp at hs
    · rw [hcur] at hpt; simp at hpt
  · intro h
    have heq := foldl_no_header lines [] [] h
    unfold process processText
    rw [heq]

/-- C4 witness: the amended theorem evaluated at a one-header input. -/
theorem c4_witness : (process c4Lines).isOk = true :=
  (c4_amended_never_raises_and_empty_iff_no_header c4Lines).1

/-! ## Claim theorems: cross references (C5) -/

/-- C5: for every article list, the cross-reference pass never creates a
`REFERENCES` edge from a paragraph to its own containing article, and the
targets a single paragraph produces are duplicate-free (set semantics), so
one paragraph yields at most one edge per cited article. -/
theorem c5_no_self_reference_and_set_semantics (articles : List Article) :
    (∀ e ∈ crossReferences articles, e.target ≠ e.source)
    ∧ ∀ a ∈ articles, ∀ p ∈ a.paragraphs, (paragraphRefs a.number p.text).Nodup := by
  constructor
  · intro e he
    rw [crossReferences, List.mem_flatMap] at he
    obtain ⟨a, _, he⟩ := he
    by_cases hn : a.number = ""
    · simp [hn] at he
    · rw [if_neg hn, List.mem_flatMap] at he
      obtain ⟨p, _, he⟩ := he
      rcases hpt : (decide (p.number = "") || decide (p.text = "")) with _ | _
      · rw [if_neg (by simp [hpt])] at he
        rw [List.mem_map] at he
        obtain ⟨t, ht, rfl⟩ := he
        rw [paragraphRefs, List.mem_filter] at ht
        simpa using ht.2
      · rw [if_pos (by simp_all)] at he
        exact absurd he (List.not_mem_nil e)
  · intro a _ p _
    exact (List.nodup_dedup _).filter _

/-- C5 witness: the spec's own example — one paragraph of Article 2 citing
Article 1 (twice) produces the single non-self edge `c5Edge`. -/
theorem c5_witness : crossReferences c5Arts = [c5Edge] ∧ c5Edge.target ≠ c5Edge.source :=
  ⟨by decide, (c5_no_self_reference_and_set_semantics c5Arts).1 c5Edge (by decide)⟩

/-! ## Claim theorems: article fetch (C8, C9) -/

/-- C8: for every graph and article number that no stored article carries,
`get_article_content` returns the not-found signal `none` — the embedding
is total, mirroring the method's catch-all that converts backend
exceptions into `None` as well. -/
theorem c8_absent_article_returns_none (kg : List KGArticle) (n : String)
    (h : ∀ a ∈ kg, a.number ≠ n) : getArticleContent kg n = none := by
  unfold getArticleContent
  by_cases hn : n = ""
  · simp [hn]
  · have hf : kg.find? (fun a => a.number == n) = none :=
      List.find?_eq_none.mpr (fun x hx => by simpa using h x hx)
    simp [hn, hf]

/-- C8 witness: article "99" on the graph holding articles 1–5. -/
theorem c8_witness : getArticleContent c8KG "99" = none :=
  c8_absent_article_returns_none c8KG "99" (by decide)

/-- C9: an article stored with zero contained paragraphs is reported by
`get_article_content` exactly like an absent article: `none`, because the
Cypher `MATCH …-[:CONTAINS]->(p)` yields zero rows and `single()` returns
`None`. -/
theorem c9_zero_paragraph_article_reads_not_found (kg : List KGArticle) (n : String)
    (a : KGArticle) (hf : kg.find? (fun x => x.number == n) = some a)
    (hp : a.paragraphs = []) : getArticleContent kg n = none := by
  unfold getArticleContent
  by_cases hn : n = ""
  · simp [hn]
  · simp [hn, hf, hp]

/-- C9 witness: the paragraph-less article "7". -/
theorem c9_witness : getArticleContent c9KG "7" = none :=
  c9_zero_paragraph_article_reads_not_found c9KG "7"
    { number := "7", title := "Empty", paragraphs := [] } (by decide) rfl

/-! ## Claim theorems: keyword search case sensitivity (C10) -/

/-- C10: graph keyword search matches keywords as case-sensitive substrings
of paragraph text, and `HybridRetriever` hands it the lowercased extracted
keywords; hence any row whose text contains none of the (lowercase)
extracted keywords as a literal substring — in particular a paragraph
containing a query word only in capitalized form — is never returned by
the graph keyword path. -/
theorem c10_lowercased_keywords_match_case_sensitively (kg : List KGArticle)
    (q : String) (limit : Nat) (r : KGSearchResult)
    (h : ∀ k ∈ extractKeywords 4 q, containsSub r.text k = false) :
    r ∉ kgKeywordSearch kg (extractKeywords 4 q) limit := by
  intro hmem
  unfold kgKeywordSearch at hmem
  by_cases hkw : (extractKeywords 4 q).isEmpty
  · simp [hkw] at hmem
  · rw [if_neg (by simp [hkw])] at hmem
    have h1 := List.mem_of_mem_take hmem
    have h2 := (List.perm_insertionSort _ _).mem_iff.mp h1
    rw [List.mem_filter] at h2
    obtain ⟨k, hk, hck⟩ := List.any_eq_true.mp h2.2
    rw [h k hk] at hck
    cases hck

/-- C10 witness: the query word "ROBOT" is lowercased to the keyword
"robot", which is not a case-sensitive substring of "The ROBOT must
comply.", so that paragraph's row is not returned. -/
theorem c10_witness :
    c10Row ∉ kgKeywordSearch c10KG (extractKeywords 4 c10Query) 5 :=
  c10_lowercased_keywords_match_case_sensitively c10KG c10Query 5 c10Row (by decide)

/-! ## Claim theorems: vector search query guard (C7) -/

/-- C7 counterexample: a whitespace-only (non-empty) query does NOT
short-circuit — `VectorStore.search` forwards it to the backend (the
result depends on the backend and can be non-empty), contradicting the
claim that whitespace-only queries return `[]` without invoking the
backend. -/
theorem c7_counterexample_whitespace_query_hits_backend :
    vectorSearch c7Backend " " 5 = [c7Match]
    ∧ vectorSearch c7EmptyBackend " " 5 = [] := by
  exact ⟨rfl, rfl⟩

/-- C7 amended: only the exactly-empty query short-circuits: for it,
`VectorStore.search` returns `[]` whatever the backend would do (so the
backend is not consulted). -/
theorem c7_amended_only_empty_query_short_circuits
    (b : String → Nat → Except String (List VMatch)) (k : Nat) :
    vectorSearch b "" k = [] := rfl

/-- C7 witness: the amended theorem at a concrete backend. -/
theorem c7_witness : vectorSearch c7EmptyBackend "" 3 = [] :=
  c7_amended_only_empty_query_short_circuits c7EmptyBackend 3

/-! ## Retriever lemmas -/

/-- Lexicographic comparison is total. -/
theorem charsLeB_total (as bs : List Char) :
    charsLeB as bs = true ∨ charsLeB bs as = true := by
  induction as generalizing bs with
  | nil => left; rfl
  | cons a as ih =>
    cases bs with
    | nil => right; rfl
    | cons b bs =>
      rcases lt_trichotomy a b with h | h | h
      · left; simp [charsLeB, h]
      · subst h
        rcases ih bs with h' | h'
        · left; simp [charsLeB, lt_irrefl, h']
        · right; simp [charsLeB, lt_irrefl, h']
      · right; simp [charsLeB, h]

/-- Lexicographic comparison is transitive. -/
theorem charsLeB_trans (as : List Char) : ∀ bs cs : List Char,
    charsLeB as bs = true → charsLeB bs cs = true → charsLeB as cs = true := by
  induction as with
  | nil => intros; rfl
  | cons a as ih =>
    intro bs cs hab hbc
    cases bs with
    | nil => simp [charsLeB] at hab
    | cons b bs =>
      cases cs with
      | nil => simp [charsLeB] at hbc
      | cons c cs =>
        rcases lt_trichotomy a b with h1 | h1 | h1
        · rcases lt_trichotomy b c with h2 | h2 | h2
          · simp [charsLeB, lt_trans h1 h2]
          · subst h2; simp [charsLeB, h1]
          · simp [charsLeB, lt_asymm h2, h2] at hbc
        · subst h1
          rw [charsLeB, if_neg (lt_irrefl a), if_neg (lt_irrefl a)] at hab
          rcases lt_trichotomy a c with h2 | h2 | h2
          · simp [charsLeB, h2]
          · subst h2
            rw [charsLeB, if_neg (lt_irrefl a), if_neg (lt_irrefl a)] at hbc ⊢
            exact ih bs cs hab hbc
          · simp [charsLeB, lt_asymm h2, h2] at hbc
        · simp [charsLeB, lt_asymm h1, h1] at hab

instance : IsTotal String (fun a b => strLeB a b = true) :=
  ⟨fun a b => charsLeB_total a.data b.data⟩

instance : IsTrans String (fun a b => strLeB a b = true) :=
  ⟨fun a b c => charsLeB_trans a.data b.data c.data⟩

/-- The content block `get_article_content` returns carries the requested
article number. -/
theorem getArticleContent_article (kg : List KGArticle) (n : String)
    (c : ArticleContent) (h : getArticleContent kg n = some c) : c.article = n := by
  unfold getArticleContent at h
  by_cases hn : n = ""
  · simp [hn] at h
  · rw [if_neg hn] at h
    rcases hf : kg.find? (fun a => a.number == n) with _ | a
    · rw [hf] at h; cases h
    · rw [hf] at h
      simp only at h
      by_cases hp : a.paragraphs.isEmpty
      · rw [if_pos hp] at h; cases h
      · rw [if_neg hp] at h
        cases h
        rfl

/-- Every article number in the loop's input that was fetched successfully
contributes its content block to the result. -/
theorem fetchLoop_found_mem (kg : List KGArticle) (l : List String) :
    ∀ (retrieved : List String) (n : String) (c : ArticleContent),
      n ∈ l → n ∉ retrieved → getArticleContent kg n = some c →
      c ∈ (fetchLoop kg l retrieved).1 := by
  induction l with
  | nil => intro _ n _ hn; exact absurd hn (List.not_mem_nil n)
  | cons m rest ih =>
    intro retrieved n c hn hnr hget
    by_cases hmr : m ∈ retrieved
    · have hne : n ≠ m := fun h => hnr (h ▸ hmr)
      have hn' : n ∈ rest := by
        rcases List.mem_cons.mp hn with h | h
        · exact absurd h hne
        · exact h
      simp only [fetchLoop, if_pos hmr]
      exact ih retrieved n c hn' hnr hget
    · rcases hg : getArticleContent kg m with _ | cm
      · have hne : n ≠ m := by
          intro h
          rw [h, hg] at hget
          cases hget
        have hn' : n ∈ rest := by
          rcases List.mem_cons.mp hn with h | h
          · exact absurd h hne
          · exact h
        simp only [fetchLoop, if_neg hmr, hg]
        exact ih retrieved n c hn' hnr hget
      · simp only [fetchLoop, if_neg hmr, hg]
        by_cases hnm : n = m
        · subst hnm
          rw [hget] at hg
          cases hg
          exact List.mem_cons_self _ _
        · have hn' : n ∈ rest := by
            rcases List.mem_cons.mp hn with h | h
            · exact absurd h hnm
            · exact h
          have hnr' : n ∉ m :: retrieved := by
            intro hx
            rcases List.mem_cons.mp hx with h | h
            · exact hnm h
            · exact hnr h
          exact List.mem_cons_of_mem _ (ih (m :: retrieved) n c hn' hnr' hget)

/-- On a duplicate-free input disjoint from the retrieved set, the loop
calls `get_article_content` exactly once per input number, in order. -/
theorem fetchLoop_trace_eq (kg : List KGArticle) (l : List String) :
    ∀ retrieved : List String, l.Nodup → (∀ n ∈ l, n ∉ retrieved) →
      (fetchLoop kg l retrieved).2 = l := by
  induction l with
  | nil => intros; rfl
  | cons m rest ih =>
    intro retrieved hnd hdis
    have hm : m ∉ retrieved := hdis m (List.mem_cons_self m rest)
    have hnd' := (List.nodup_cons.mp hnd).2
    have hmrest := (List.nodup_cons.mp hnd).1
    rcases hg : getArticleContent kg m with _ | cm
    · simp only [fetchLoop, if_neg hm, hg]
      rw [ih retrieved hnd' (fun n hn => hdis n (List.mem_cons_of_mem m hn))]
    · simp only [fetchLoop, if_neg hm, hg]
      rw [ih (m :: retrieved) hnd' ?_]
      intro n hn hx
      rcases List.mem_cons.mp hx with h | h
      · exact hmrest (h ▸ hn)
      · exact hdis n (List.mem_cons_of_mem m hn) h

/-- The article numbers of the returned content blocks form a sublist of
the loop's input. -/
theorem fetchLoop_map_article_sublist (kg : List KGArticle) (l : List String) :
    ∀ retrieved : List String,
      ((fetchLoop kg l retrieved).1.map ArticleContent.article).Sublist l := by
  induction l with
  | nil => intro _; exact List.nil_sublist []
  | cons m rest ih =>
    intro retrieved
    by_cases hmr : m ∈ retrieved
    · simp only [fetchLoop, if_pos hmr]
      exact (ih retrieved).cons m
    · rcases hg : getArticleContent kg m with _ | cm
      · simp only [fetchLoop, if_neg hmr, hg]
        exact (ih retrieved).cons m
      · simp only [fetchLoop, if_neg hmr, hg, List.map_cons]
        rw [getArticleContent_article kg m cm hg]
        exact (ih (m :: retrieved)).cons₂ m

/-! ## Claim theorems: hybrid retrieval (C3, C6) -/

/-- C3 counterexample: with articles "9" and "10" both identified,
`HybridRetriever.search` returns the blocks in lexicographic string order
["10", "9"], which is NOT ascending by the numeric value of the article
identifier — refuting the claim's ordering clause at this input. -/
theorem c3_counterexample_string_sort_not_numeric :
    (hybridSearch c3Backend c3KG "aaaa" 5 5).map ArticleContent.article = ["10", "9"]
    ∧ numSortedB ((hybridSearch c3Backend c3KG "aaaa" 5 5).map ArticleContent.article)
        = false := by decide

/-- C3 amended: `HybridRetriever.search` calls `get_article_content` at
most once per article number (the fetch trace is duplicate-free), the
trace covers exactly the union of the numbers identified by the two paths,
and the returned blocks are ordered ascending by LEXICOGRAPHIC string
comparison of the article identifier (so "10" comes before "9"). -/
theorem c3_amended_fetch_once_and_lexicographic_order
    (b : String → Nat → Except String (List VMatch)) (kg : List KGArticle)
    (q : String) (tkv tkg : Nat) :
    (hybridFetchTrace b kg q tkv tkg).Nodup
    ∧ (∀ n, n ∈ hybridFetchTrace b kg q tkv tkg ↔ n ∈ identifiedArticles b kg q tkv tkg)
    ∧ ((hybridSearch b kg q tkv tkg).map ArticleContent.article).Pairwise
        (fun x y => strLeB x y = true) := by
  by_cases hq : q = ""
  · refine ⟨?_, ?_, ?_⟩ <;>
      simp [hybridFetchTrace, hybridSearch, hybridSearchCore, identifiedArticles, hq]
  · have hperm := List.perm_insertionSort (fun a b => strLeB a b = true)
      (identifiedArticleNums kg (vectorSearch b q tkv) q tkg).dedup
    have hnodupL := hperm.symm.nodup
      (List.nodup_dedup (identifiedArticleNums kg (vectorSearch b q tkv) q tkg))
    have htrace := fetchLoop_trace_eq kg
      (List.insertionSort (fun a b => strLeB a b = true)
        (identifiedArticleNums kg (vectorSearch b q tkv) q tkg).dedup) []
      hnodupL (by simp)
    refine ⟨?_, ?_, ?_⟩
    · simp only [hybridFetchTrace, hybridSearchCore, if_neg hq, hybridCore]
      rw [htrace]
      exact hnodupL
    · intro n
      simp only [hybridFetchTrace, hybridSearchCore, if_neg hq, hybridCore,
        identifiedArticles]
      rw [htrace]
      rw [hperm.mem_iff, List.mem_dedup]
    · simp only [hybridSearch, hybridSearchCore, if_neg hq, hybridCore]
      exact List.Pairwise.sublist (fetchLoop_map_article_sublist kg _ [])
        (List.sorted_insertionSort _ _)

/-- C3 witness: the amended theorem instantiated on the two-article graph:
the fetch trace is duplicate-free. -/
theorem c3_witness : (hybridFetchTrace c3Backend c3KG "aaaa" 5 5).Nodup :=
  (c3_amended_fetch_once_and_lexicographic_order c3Backend c3KG "aaaa" 5 5).1

/-- C6: if the vector backend fails on the query, `HybridRetriever.search`
returns exactly what it returns with an empty vector result (no exception
escapes: `VectorStore.search` catches it and degrades to `[]`), and every
row found by the graph keyword path whose article content exists is still
represented in the returned list. -/
theorem c6_vector_failure_degrades_to_graph_results
    (b : String → Nat → Except String (List VMatch)) (kg : List KGArticle)
    (q : String) (tkv tkg : Nat) (e : String)
    (hb : ∀ k, b q k = Except.error e) :
    hybridSearch b kg q tkv tkg = hybridSearch (fun _ _ => Except.ok []) kg q tkv tkg
    ∧ ∀ r ∈ graphRows kg q tkg, ∀ c, getArticleContent kg r.article = some c →
        c ∈ hybridSearch b kg q tkv tkg := by
  have hv : vectorSearch b q tkv = vectorSearch (fun _ _ => Except.ok []) q tkv := by
    unfold vectorSearch
    by_cases hq : q = ""
    · simp [hq]
    · simp [hq, hb tkv]
  constructor
  · unfold hybridSearch hybridSearchCore
    rw [hv]
  · intro r hr c hc
    by_cases hq : q = ""
    · rw [hq] at hr
      have : graphRows kg "" tkg = [] := rfl
      rw [this] at hr
      exact absurd hr (List.not_mem_nil r)
    · have hra : r.article ≠ "" := by
        intro h0
        rw [h0] at hc
        simp [getArticleContent] at hc
      have hmem1 : r.article ∈ graphArticleNums kg q tkg := by
        rw [graphArticleNums, List.mem_filterMap]
        exact ⟨r, hr, by simp [hra]⟩
      have hmem2 : r.article ∈
          identifiedArticleNums kg (vectorSearch b q tkv) q tkg := by
        rw [identifiedArticleNums]
        exact List.mem_append_right _ hmem1
      have hmem4 := (List.perm_insertionSort (fun a b => strLeB a b = true)
        (identifiedArticleNums kg (vectorSearch b q tkv) q tkg).dedup).mem_iff.mpr
        (List.mem_dedup.mpr hmem2)
      have hfin := fetchLoop_found_mem kg _ [] r.article c hmem4 (by simp) hc
      simp only [hybridSearch, hybridSearchCore, if_neg hq, hybridCore]
      exact hfin

/-- C6 witness: failing backend, graph holding article "4" matched by the
keyword "risk": the hybrid result equals the graph-only result and
contains article 4's content block. -/
theorem c6_witness :
    hybridSearch c6FailBackend c6KG "risk" 5 5 =
      hybridSearch c6OkBackend c6KG "risk" 5 5
    ∧ c6Content ∈ hybridSearch c6FailBackend c6KG "risk" 5 5 := by
  have h := c6_vector_failure_degrades_to_graph_results c6FailBackend c6KG "risk" 5 5
    "pinecone unavailable" (fun _ => rfl)
  exact ⟨h.1, h.2 c6Row (by decide) c6Content (by decide)⟩

end EUAIAct
